import Mathlib

/-!
Verification of the chimera-spawn agent: a shallow embedding of the
configuration loader, IPC/REST control servers, reconciliation engine,
systemd host driver and the container/image providers, together with
theorems checking the natural-language specification against the code.
-/

namespace Chimera

/-! ## YAML-like values and dictionaries (spec store / cloud-init resolution)

Python dictionaries of parsed YAML are modelled as insertion-ordered
association lists: updating an existing key keeps its position, a new key
is appended (CPython dict semantics). -/

/-- A YAML-like value: string, number, or nested mapping. -/
inductive YVal where
  | str : String → YVal
  | num : Nat → YVal
  | dict : List (String × YVal) → YVal
deriving Repr

/-- Dictionary lookup (Python `d[k]` / `k in d`). -/
def lookupY : List (String × YVal) → String → Option YVal
  | [], _ => none
  | (k0, v0) :: rest, k => if k0 = k then some v0 else lookupY rest k

/-- Dictionary store with CPython semantics: replacing an existing key keeps
its position, a fresh key is appended at the end. -/
def setY : List (String × YVal) → String → YVal → List (String × YVal)
  | [], k, v => [(k, v)]
  | (k0, v0) :: rest, k, v =>
      if k0 = k then (k0, v) :: rest else (k0, v0) :: setY rest k v

/-- Embedding of `merge_dicts` from `src/chimera/utils/templates.py`:
deep merge of two dictionaries — `result = base.copy()`, then for each
`key, value` of `override`, recurse when both sides hold a mapping at
`key`, otherwise the override value replaces. -/
def merge_dicts : List (String × YVal) → List (String × YVal) → List (String × YVal)
  | base, [] => base
  | base, (k, .dict vm) :: rest =>
      match lookupY base k with
      | some (.dict bm) =>
          merge_dicts (setY base k (YVal.dict (merge_dicts bm vm))) rest
      | _ => merge_dicts (setY base k (YVal.dict vm)) rest
  | base, (k, v) :: rest => merge_dicts (setY base k v) rest
termination_by base o => sizeOf o
decreasing_by
  all_goals simp_wf
  all_goals omega

/-- Embedding of CPython `dict.update`: shallow, key-by-key replacement. -/
def updateY : List (String × YVal) → List (String × YVal) → List (String × YVal)
  | base, [] => base
  | base, (k, v) :: rest => updateY (setY base k v) rest

/-- Embedding of the cloud-init template resolution in
`ConfigManager._load_containers` (`src/chimera/agent/config.py` lines
130-137): when the container cloud-init names a `template` that exists in
the template catalog, the resolved value is `template.copy()` followed by
`cloud_init.update(spec.cloud_init)` — a shallow update with the full
override dictionary (the `template` key included). -/
def resolve_cloud_init (templates : List (String × List (String × YVal)))
    (ci : List (String × YVal)) : List (String × YVal) :=
  match lookupY ci "template" with
  | some (.str t) =>
      match templates.lookup t with
      | some tmpl => updateY tmpl ci
      | none => ci
  | _ => ci

/-- The template of the deep-merge example in the specification:
meta_data has keys a and nested.x, user_data is the string A. -/
def exTemplate : List (String × YVal) :=
  [("meta_data", .dict [("a", .num 1), ("nested", .dict [("x", .num 1)])]),
   ("user_data", .str "A")]

/-- The container-level override of the deep-merge example, as it appears in
a node file: it names the template and overrides meta_data. -/
def exOverride : List (String × YVal) :=
  [("template", .str "base"),
   ("meta_data", .dict [("b", .num 2), ("nested", .dict [("y", .num 2)])])]

/-- The catalog holding the example template under the name base. -/
def exTemplates : List (String × List (String × YVal)) := [("base", exTemplate)]

/-- The cloud-init value the spec-store loader actually computes for the
example container. -/
def exResolved : List (String × YVal) := resolve_cloud_init exTemplates exOverride

/-- C1: the claim states that the spec-store loader deep-merges a named
cloud-init template with the container overrides and clears the template
field; on the example input the code instead performs a shallow
`dict.update`: the resolved meta_data is exactly the override mapping
(the template keys a and nested.x are lost), and the template field is
still set afterwards — even though the repository's own `merge_dicts`
utility computes precisely the deep merge the claim describes. -/
theorem cloud_init_resolution_is_shallow_not_deep :
    lookupY exResolved "meta_data"
      = some (.dict [("b", .num 2), ("nested", .dict [("y", .num 2)])])
    ∧ lookupY exResolved "template" = some (.str "base")
    ∧ lookupY exResolved "user_data" = some (.str "A")
    ∧ merge_dicts [("a", .num 1), ("nested", .dict [("x", .num 1)])]
        [("b", .num 2), ("nested", .dict [("y", .num 2)])]
      = [("a", .num 1), ("nested", .dict [("x", .num 1), ("y", .num 2)]),
         ("b", .num 2)] := by
  refine ⟨rfl, rfl, rfl, ?_⟩
  simp [merge_dicts, lookupY, setY]

/-! ## IPC server: request processing and the privilege gate
(`src/chimera/agent/ipc.py`) -/

/-- A response envelope as produced by the servers: a success flag, optional
data and optional error text. -/
structure Envelope where
  success : Bool
  data : Option String
  error : Option String
deriving DecidableEq, Repr

/-- The PRIVILEGED_COMMANDS set of `src/chimera/agent/ipc.py`. -/
def ipcPrivilegedCommands : List String :=
  ["spawn", "stop", "start", "remove", "exec", "reconcile", "reload", "image_pull"]

/-- The keys of the handlers dictionary in `IPCServer._process_request`. -/
def ipcHandlerCommands : List String :=
  ["status", "list", "spawn", "stop", "start", "remove", "exec",
   "reconcile", "reload", "image_pull", "validate"]

/-- Embedding of `IPCServer._process_request`: the peer uid is an optional
number (none when peer credentials could not be read); a privileged command
from a peer that is not uid 0 is answered with the permission-denied
envelope before any handler lookup; otherwise the handler table is
consulted, an unknown command is an error envelope, and a handler outcome
(abstracted as `run`) is wrapped into a success or error envelope. -/
def processRequest (command : String) (clientUid : Option Nat)
    (run : String → Except String String) : Envelope :=
  if ipcPrivilegedCommands.contains command && clientUid != some 0 then
    ⟨false, none, some "Permission denied: Root privileges required"⟩
  else if ipcHandlerCommands.contains command then
    match run command with
    | .ok d => ⟨true, some d, none⟩
    | .error e => ⟨false, none, some e⟩
  else
    ⟨false, none, some ("Unknown command: " ++ command)⟩

/-- C2: the claim lists restart, stream_exec and stream_shell among the
privileged commands gated by uid on the local control socket; in the code
the IPC privileged set omits all three and the handler table has no
restart entry, so a restart request is answered with an unknown-command
error for every peer uid — it is neither permission-denied for uid 1000
nor dispatched for uid 0 — while a command such as spawn is gated exactly
as the claim describes. -/
theorem ipc_privilege_gate_omits_restart_commands :
    (ipcPrivilegedCommands.contains "restart" = false
      ∧ ipcPrivilegedCommands.contains "stream_exec" = false
      ∧ ipcPrivilegedCommands.contains "stream_shell" = false)
    ∧ processRequest "restart" (some 1000) (fun _ => .ok "done")
        = ⟨false, none, some "Unknown command: restart"⟩
    ∧ processRequest "restart" (some 0) (fun _ => .ok "done")
        = ⟨false, none, some "Unknown command: restart"⟩
    ∧ processRequest "spawn" (some 1000) (fun _ => .ok "done")
        = ⟨false, none, some "Permission denied: Root privileges required"⟩
    ∧ processRequest "spawn" none (fun _ => .ok "done")
        = ⟨false, none, some "Permission denied: Root privileges required"⟩
    ∧ processRequest "spawn" (some 0) (fun _ => .ok "done")
        = ⟨true, some "done", none⟩
    ∧ processRequest "status" (some 1000) (fun _ => .ok "ok")
        = ⟨true, some "ok", none⟩ := by
  decide

/-! ## REST control server: command endpoint (`src/chimera/agent/server.py`) -/

/-- The keys of the handlers dictionary in `AgentServer._process_command`. -/
def serverHandlerCommands : List String :=
  ["status", "list", "spawn", "stop", "start", "restart", "remove", "exec",
   "reconcile", "reload", "image_pull", "validate"]

/-- Embedding of `AgentServer._handle_command`: the request body is parsed
(`parsed` is its outcome), the command is dispatched through
`_process_command` (an unknown command raises, a handler outcome is
abstracted as `run`), and a single try/except wraps everything: any
exception — parse failure, unknown command, or a command-level error —
is turned into HTTP 500 with a failure envelope, while only a fully
successful command yields HTTP 200 with a success envelope. -/
def handleCommand (parsed : Except String String)
    (run : String → Except String String) : Nat × Envelope :=
  match parsed with
  | .error e => (500, ⟨false, none, some e⟩)
  | .ok command =>
    if serverHandlerCommands.contains command then
      match run command with
      | .ok d => (200, ⟨true, some d, none⟩)
      | .error e => (500, ⟨false, none, some e⟩)
    else
      (500, ⟨false, none, some ("Unknown command: " ++ command)⟩)

/-- C8 counterexample: a POST whose body parses successfully but whose
command fails is answered with HTTP 500, not the 200 the claim requires;
the unknown-command case the repository's own server test exercises is
also 500. -/
theorem rest_command_error_returns_500_counterexample :
    handleCommand (.ok "stop") (fun _ => .error "boom")
        = (500, ⟨false, none, some "boom"⟩)
    ∧ ¬ (handleCommand (.ok "stop") (fun _ => .error "boom")).1 = 200
    ∧ (handleCommand (.ok "invalid_cmd") (fun _ => .ok "x")).1 = 500 := by
  decide

/-- C8 amended: the command endpoint returns HTTP 200 with a success
envelope only when parsing and the command both succeed; every failure —
parse error, unknown command, or command-level error — is answered with
HTTP 500 carrying a failure envelope. -/
theorem rest_envelope_status_partition :
    (∀ e run, handleCommand (.error e) run = (500, ⟨false, none, some e⟩))
    ∧ (∀ command d,
        handleCommand (.ok command) (fun _ => .ok d)
          = if serverHandlerCommands.contains command = true then
              (200, ⟨true, some d, none⟩)
            else (500, ⟨false, none, some ("Unknown command: " ++ command)⟩))
    ∧ (∀ command e,
        handleCommand (.ok command) (fun _ => .error e)
          = if serverHandlerCommands.contains command = true then
              (500, ⟨false, none, some e⟩)
            else (500, ⟨false, none, some ("Unknown command: " ++ command)⟩)) := by
  refine ⟨fun e run => rfl, fun command d => ?_, fun command e => ?_⟩
  · by_cases h : serverHandlerCommands.contains command = true <;>
      simp [handleCommand, h]
  · by_cases h : serverHandlerCommands.contains command = true <;>
      simp [handleCommand, h]

/-! ## Reconciliation engine: imperative operators (`src/chimera/agent/engine.py`) -/

/-- The imperative operator methods that class StateEngine actually
defines (`src/chimera/agent/engine.py` lines 186-278). -/
def engineImperativeOperators : List String :=
  ["execute_in_container", "create_container", "stop_container",
   "start_container", "remove_container"]

/-- The StateEngine method that `AgentServer._handle_restart`
(`src/chimera/agent/server.py` line 310) invokes. -/
def serverRestartEngineMethod : String := "restart_container"

/-- Errors surfaced by the engine operators, as named by the spec. -/
inductive EngError where
  | notFound
  | invalid
  | notRunning
  | notExist
deriving DecidableEq, Repr

/-- A minimal catalog for the engine operators: containers with their image
and profile references, plus the image and profile catalogs. -/
structure EngCatalog where
  containers : List (String × String × String)
  images : List String
  profiles : List String

/-- Embedding of the enrichment-plus-validation prefix shared by
`create_container` and `start_container`: `_enrich_container_spec`
resolves the image and profile references, and `validate_spec` of the
container provider rejects when either reference is dangling. -/
def enrichValidates (cat : EngCatalog) (image profile : String) : Bool :=
  cat.images.contains image && cat.profiles.contains profile

/-- Embedding of `StateEngine.create_container` up to its first provider
mutation: unknown name fails with NotFound, a dangling reference after
enrichment fails with Invalid, otherwise the provider calls proceed. -/
def createContainer (cat : EngCatalog) (name : String) : Except EngError Unit :=
  match cat.containers.lookup name with
  | none => .error .notFound
  | some (image, profile) =>
      if enrichValidates cat image profile then .ok () else .error .invalid

/-- Embedding of `StateEngine.execute_in_container` up to the provider
execute call: unknown name fails with NotFound; a container that does not
exist on the host fails; exec on a stopped container fails with
NotRunning. The host observation is abstracted as the two predicates. -/
def executeInContainer (cat : EngCatalog) (present running : String → Bool)
    (name : String) : Except EngError Unit :=
  match cat.containers.lookup name with
  | none => .error .notFound
  | some _ =>
      if present name then
        if running name then .ok () else .error .notRunning
      else .error .notExist

/-- The one-container catalog used to evaluate the operators. -/
def exCatalog : EngCatalog :=
  ⟨[("c1", "u-tar", "isolated")], ["u-tar"], ["isolated"]⟩

/-- C5: the claim says the engine exposes restart_container among its
imperative operators; the code defines no such method, even though the
REST server's restart handler invokes exactly that name (so a restart
command fails with an attribute error instead of restarting), while the
operators that do exist fail fast as described: NotFound for a name
missing from the catalog, Invalid for a dangling reference, NotRunning
for exec on a stopped container. -/
theorem engine_lacks_restart_container_operator :
    engineImperativeOperators.contains serverRestartEngineMethod = false
    ∧ serverHandlerCommands.contains "restart" = true
    ∧ createContainer exCatalog "ghost" = .error .notFound
    ∧ createContainer ⟨[("c1", "missing-img", "isolated")], ["u-tar"], ["isolated"]⟩
        "c1" = .error .invalid
    ∧ executeInContainer exCatalog (fun _ => true) (fun _ => false) "c1"
        = .error .notRunning
    ∧ executeInContainer exCatalog (fun _ => true) (fun _ => true) "c1" = .ok () := by
  exact ⟨rfl, rfl, rfl, rfl, rfl, rfl⟩

/-! ## Host driver: bus methods with CLI fallback
(`src/chimera/utils/systemd.py`)

Each method is embedded as a function of the connection flag
(`self.systemd` is set), the outcome of the bus call and the outcome of
the fallback tool invocation; it returns the surfaced outcome together
with the number of CLI invocations performed. In the source the except
block that catches the bus error runs the CLI call without re-raising, so
whatever the CLI call produces — including its own error — is what the
caller sees. -/

/-- Embedding of `SystemdDBus.start_unit`. -/
def startUnit (connected : Bool) (bus cli : Except String Unit) :
    Except String Unit × Nat :=
  if connected then
    match bus with
    | .ok _ => (.ok (), 0)
    | .error _ => (cli, 1)
  else (cli, 1)

/-- Embedding of `SystemdDBus.stop_unit`. -/
def stopUnit (connected : Bool) (bus cli : Except String Unit) :
    Except String Unit × Nat :=
  if connected then
    match bus with
    | .ok _ => (.ok (), 0)
    | .error _ => (cli, 1)
  else (cli, 1)

/-- Embedding of `SystemdDBus.enable_unit`. -/
def enableUnit (connected : Bool) (bus cli : Except String Unit) :
    Except String Unit × Nat :=
  if connected then
    match bus with
    | .ok _ => (.ok (), 0)
    | .error _ => (cli, 1)
  else (cli, 1)

/-- Embedding of `SystemdDBus.disable_unit`. -/
def disableUnit (connected : Bool) (bus cli : Except String Unit) :
    Except String Unit × Nat :=
  if connected then
    match bus with
    | .ok _ => (.ok (), 0)
    | .error _ => (cli, 1)
  else (cli, 1)

/-- Embedding of `SystemdDBus.reload_daemon`: when the bus is not
connected nothing at all is attempted. -/
def reloadDaemon (connected : Bool) (bus cli : Except String Unit) :
    Except String Unit × Nat :=
  if connected then
    match bus with
    | .ok _ => (.ok (), 0)
    | .error _ => (cli, 1)
  else (.ok (), 0)

/-- Embedding of `SystemdDBus.get_unit_state`: the fallback runs the
is-active tool with check disabled and returns its stdout, so the
fallback itself never raises. -/
def unitState (connected : Bool) (bus : Except String String)
    (cliOut : String) : Except String String × Nat :=
  if connected then
    match bus with
    | .ok s => (.ok s, 0)
    | .error _ => (.ok cliOut, 1)
  else (.ok cliOut, 1)

/-- Embedding of `SystemdDBus.list_machines`: a bus failure falls through
to the list tool invocation, whose own outcome is surfaced. -/
def listMachines (connected : Bool) (bus cli : Except String (List String)) :
    Except String (List String) × Nat :=
  if connected then
    match bus with
    | .ok ms => (.ok ms, 0)
    | .error _ => (cli, 1)
  else (cli, 1)

/-- C6 counterexample: when the bus start_unit call fails with one error
and the fallback tool fails with another, the caller receives the CLI
error — not the original bus error the claim requires. -/
theorem bus_fallback_surfaces_cli_error_counterexample :
    startUnit true (.error "bus: access denied") (.error "systemctl: unit not found")
      = (.error "systemctl: unit not found", 1)
    ∧ ¬ (startUnit true (.error "bus: access denied")
          (.error "systemctl: unit not found")).1 = .error "bus: access denied" := by
  refine ⟨rfl, ?_⟩
  intro h
  simp [startUnit] at h

/-- C6 amended: for every bus method, a bus failure triggers exactly one
CLI fallback invocation and a bus success triggers none; when the
fallback also fails, the CLI error — not the original bus error — is the
one that surfaces (get_unit_state's fallback reads the tool output
without checking, so it surfaces that output instead of an error). -/
theorem bus_fallback_once_cli_outcome_surfaces :
    (∀ e cli, startUnit true (.error e) cli = (cli, 1))
    ∧ (∀ cli, startUnit true (.ok ()) cli = (.ok (), 0))
    ∧ (∀ e cli, stopUnit true (.error e) cli = (cli, 1))
    ∧ (∀ cli, stopUnit true (.ok ()) cli = (.ok (), 0))
    ∧ (∀ e cli, enableUnit true (.error e) cli = (cli, 1))
    ∧ (∀ cli, enableUnit true (.ok ()) cli = (.ok (), 0))
    ∧ (∀ e cli, disableUnit true (.error e) cli = (cli, 1))
    ∧ (∀ cli, disableUnit true (.ok ()) cli = (.ok (), 0))
    ∧ (∀ e cli, reloadDaemon true (.error e) cli = (cli, 1))
    ∧ (∀ cli, reloadDaemon true (.ok ()) cli = (.ok (), 0))
    ∧ (∀ e out, unitState true (.error e) out = (.ok out, 1))
    ∧ (∀ s out, unitState true (.ok s) out = (.ok s, 0))
    ∧ (∀ e cli, listMachines true (.error e) cli = (cli, 1))
    ∧ (∀ ms cli, listMachines true (.ok ms) cli = (.ok ms, 0)) := by
  exact ⟨fun _ _ => rfl, fun _ => rfl, fun _ _ => rfl, fun _ => rfl,
    fun _ _ => rfl, fun _ => rfl, fun _ _ => rfl, fun _ => rfl,
    fun _ _ => rfl, fun _ => rfl, fun _ _ => rfl, fun _ _ => rfl,
    fun _ _ => rfl, fun _ _ => rfl⟩

/-! ## Container and image providers over an abstract host state
(`src/chimera/providers/container.py`, `src/chimera/providers/image.py`)

The host artifacts a container owns are modelled as booleans: the machine
registration visible to the host machine tool, the machine-store
directory and raw file, the machine config (.nspawn) file, the unit
override directory, and the unit's enabled and active flags. Provider
operations are state transformers mirroring the source statement by
statement; host tool calls are assumed to succeed (an operation that
raises does not return, so the postconditions below describe every
normal return). -/

/-- Observed resource status, from `src/chimera/providers/base.py`. -/
inductive ProviderStatus where
  | present
  | absent
  | unknown
  | error
deriving DecidableEq, Repr

/-- The slice of a container spec the provider operations inspect: the
machine name and whether the enriched image spec has the raw type. -/
structure ContSpec where
  name : String
  imageIsRaw : Bool

/-- Host artifacts attached to one container name. -/
structure HostState where
  registered : Bool
  dirExists : Bool
  rawExists : Bool
  nspawnExists : Bool
  overrideExists : Bool
  unitEnabled : Bool
  unitActive : Bool
deriving DecidableEq, Repr

/-- Embedding of `ContainerProvider.status`: query the machine tool
(present when registered); otherwise inspect the machine store — a raw
file backing a raw-image spec counts as present, while any other partial
layout is reported absent with no cleanup performed. -/
def containerStatus (spec : ContSpec) (s : HostState) : ProviderStatus :=
  if s.registered then .present
  else if s.dirExists || s.rawExists then
    if s.rawExists && spec.imageIsRaw then .present else .absent
  else .absent

/-- The status call as a state transformer: all its host interactions
(the machine-tool query and the two existence checks) are reads. -/
def containerStatusOp (spec : ContSpec) (s : HostState) :
    ProviderStatus × HostState :=
  (containerStatus spec s, s)

/-- Embedding of `ImageProvider.status`: a show-image query; present
exactly when the image store knows the name. Its single host interaction
is a read, so the (boolean) image host state passes through. -/
def imageStatusOp (registered : Bool) : ProviderStatus × Bool :=
  (if registered then .present else .absent, registered)

/-- Embedding of `ContainerProvider.stop`: no-op when the unit is not
active, otherwise stop the unit. -/
def stopOp (s : HostState) : HostState :=
  if s.unitActive then { s with unitActive := false } else s

/-- Embedding of `ContainerProvider._disable_service`: disable the unit;
failures are caught and logged, so the call always completes. -/
def disableServiceOp (s : HostState) : HostState :=
  { s with unitEnabled := false }

/-- Embedding of the machine-removal tool call in absent: the machine
registration and its backing storage (directory or raw file) are gone. -/
def machinectlRemoveOp (s : HostState) : HostState :=
  { s with registered := false, dirExists := false, rawExists := false }

/-- Embedding of `ContainerProvider._cleanup_config_files`: remove the
machine config file and the unit override directory when they exist. -/
def cleanupConfigFilesOp (s : HostState) : HostState :=
  let s1 := if s.nspawnExists then { s with nspawnExists := false } else s
  if s1.overrideExists then { s1 with overrideExists := false } else s1

/-- Embedding of `ContainerProvider._cleanup_partial_container`: remove
the machine-store directory and raw file when they exist, then the config
files. -/
def cleanupPartialOp (s : HostState) : HostState :=
  let s1 := if s.dirExists then { s with dirExists := false } else s
  let s2 := if s1.rawExists then { s1 with rawExists := false } else s1
  cleanupConfigFilesOp s2

/-- Embedding of `ContainerProvider.absent`: when status reports present,
stop the unit, disable it and remove the machine; then, in all cases, run
the partial-state cleanup. -/
def absentOp (spec : ContSpec) (s : HostState) : HostState :=
  match containerStatus spec s with
  | .present => cleanupPartialOp (machinectlRemoveOp (disableServiceOp (stopOp s)))
  | _ => cleanupPartialOp s

/-- C4: for every container spec and every prior host state, after absent
returns no machine-store directory, raw file, machine config file or unit
override remains and the machine registration is gone; when the container
was observed present the unit has also been stopped and disabled; and a
second absent call is a no-op on the resulting state. -/
theorem container_absent_self_healing_idempotent :
    ∀ (spec : ContSpec) (s : HostState),
      ((absentOp spec s).dirExists = false
        ∧ (absentOp spec s).rawExists = false
        ∧ (absentOp spec s).nspawnExists = false
        ∧ (absentOp spec s).overrideExists = false
        ∧ (absentOp spec s).registered = false)
      ∧ absentOp spec (absentOp spec s) = absentOp spec s
      ∧ (containerStatus spec s = .present →
          (absentOp spec s).unitActive = false
            ∧ (absentOp spec s).unitEnabled = false) := by
  intro spec s
  obtain ⟨name, isRaw⟩ := spec
  obtain ⟨r, d, rw, ns, ov, en, ac⟩ := s
  cases isRaw <;> cases r <;> cases d <;> cases rw <;> cases ns <;>
    cases ov <;> cases en <;> cases ac <;>
    refine ⟨⟨rfl, rfl, rfl, rfl, rfl⟩, rfl, fun h => ?_⟩ <;>
    first
      | exact ⟨rfl, rfl⟩
      | exact ProviderStatus.noConfusion h

/-- C4 witness: absent on a fully present container (all artifacts and
the unit active) leaves nothing behind and is idempotent. -/
theorem container_absent_self_healing_idempotent_witness :
    ((absentOp ⟨"c1", false⟩ ⟨true, true, false, true, true, true, true⟩).dirExists = false
      ∧ (absentOp ⟨"c1", false⟩ ⟨true, true, false, true, true, true, true⟩).rawExists = false
      ∧ (absentOp ⟨"c1", false⟩ ⟨true, true, false, true, true, true, true⟩).nspawnExists = false
      ∧ (absentOp ⟨"c1", false⟩ ⟨true, true, false, true, true, true, true⟩).overrideExists = false
      ∧ (absentOp ⟨"c1", false⟩ ⟨true, true, false, true, true, true, true⟩).registered = false)
    ∧ absentOp ⟨"c1", false⟩ (absentOp ⟨"c1", false⟩ ⟨true, true, false, true, true, true, true⟩)
        = absentOp ⟨"c1", false⟩ ⟨true, true, false, true, true, true, true⟩
    ∧ (containerStatus ⟨"c1", false⟩ ⟨true, true, false, true, true, true, true⟩ = .present →
        (absentOp ⟨"c1", false⟩ ⟨true, true, false, true, true, true, true⟩).unitActive = false
          ∧ (absentOp ⟨"c1", false⟩ ⟨true, true, false, true, true, true, true⟩).unitEnabled = false) :=
  container_absent_self_healing_idempotent ⟨"c1", false⟩ ⟨true, true, false, true, true, true, true⟩

/-- C7: status is read-only — for every container spec and host state the
container status call returns the state unchanged (it performs only
reads), and likewise for the image status call; in particular on the
partial state of an orphaned directory without a machine registration it
reports absent for a tar-image spec without mutating anything. -/
theorem provider_status_read_only :
    (∀ (spec : ContSpec) (s : HostState), (containerStatusOp spec s).2 = s)
    ∧ (∀ (b : Bool), (imageStatusOp b).2 = b)
    ∧ (∀ (n : String) (nsp ov en ac : Bool),
        containerStatusOp ⟨n, false⟩ ⟨false, true, false, nsp, ov, en, ac⟩
          = (.absent, ⟨false, true, false, nsp, ov, en, ac⟩)) := by
  exact ⟨fun _ _ => rfl, fun _ => rfl, fun _ _ _ _ _ => rfl⟩

/-! ## Container start and the readiness probe -/

/-- Embedding of the polling loop in
`ContainerProvider._wait_for_ready`: probe the container shell once per
second for the given number of seconds, returning the first instant at
which the probe exits zero; after exhausting the window a warning is
logged and the loop simply returns (none). -/
def waitLoop (probe : Nat → Bool) : Nat → Nat → Option Nat
  | 0, _ => none
  | Nat.succ remaining, i =>
      if probe i then some i else waitLoop probe remaining (i + 1)

/-- Embedding of `ContainerProvider._wait_for_ready` with its default
30-second window. -/
def waitForReady (probe : Nat → Bool) (timeout : Nat := 30) : Option Nat :=
  waitLoop probe timeout 0

/-- Embedding of `ContainerProvider.start`: no-op when already running;
otherwise start the unit (a failure there propagates) and then run the
readiness wait, whose outcome does not influence the returned value. -/
def startContainer (running : Bool) (busStart : Except String Unit)
    (probe : Nat → Bool) : Except String Unit :=
  if running then .ok ()
  else
    match busStart with
    | .error e => .error e
    | .ok _ =>
        let _ready := waitForReady probe 30
        .ok ()

/-- C10: once the unit-start call succeeds, start returns success whatever
the readiness probe does; the 30-second readiness window expiring is only
the warning path of the wait loop (it yields none, no exception), so at
the start interface a started-but-unready container is indistinguishable
from a ready one. -/
theorem start_ignores_readiness_timeout :
    (∀ (running : Bool) (busStart : Except String Unit) (p q : Nat → Bool),
      startContainer running busStart p = startContainer running busStart q)
    ∧ startContainer false (.ok ()) (fun _ => false) = .ok ()
    ∧ waitForReady (fun _ => false) 30 = none
    ∧ (∀ e p, startContainer false (.error e) p = .error e) := by
  refine ⟨?_, rfl, ?_, fun _ _ => rfl⟩
  · intro running busStart p q
    cases running
    · cases busStart <;> rfl
    · rfl
  · rfl

/-! ## Reconciliation: pass ordering and the single-flight mutex
(`src/chimera/agent/engine.py`)

The pass over the catalog is modelled as the trace of per-resource
reconcile attempts; each declared image or container carries a flag
saying whether its own reconcile raises (the per-item try/except in the
source catches it and continues with the next resource). The
single-flight discipline is modelled as a two-task transition system
around the reconciliation lock: a task requests the lock, acquires it
only when free, runs its pass (the critical section, where all provider
calls happen) and releases it. -/

/-- One attempted provider-level reconcile action in a pass. -/
inductive RAction where
  | img : String → RAction
  | cont : String → RAction
deriving DecidableEq, Repr

/-- Whether an action belongs to the image phase. -/
def isImgAction : RAction → Bool
  | .img _ => true
  | .cont _ => false

/-- The resource name an action touches. -/
def actionName : RAction → String
  | .img n => n
  | .cont n => n

/-- Trace of `StateEngine._reconcile_images`: every declared image is
attempted in catalog order; an exception raised while reconciling one
image is caught and logged, and the loop continues. -/
def reconcileImagesT : List (String × Bool) → List RAction
  | [] => []
  | (n, _fails) :: rest => RAction.img n :: reconcileImagesT rest

/-- Trace of `StateEngine._reconcile_containers`: every declared container
is attempted in catalog order; a per-container exception is caught and
logged, and the loop continues. -/
def reconcileContainersT : List (String × Bool) → List RAction
  | [] => []
  | (n, _fails) :: rest => RAction.cont n :: reconcileContainersT rest

/-- Trace of `StateEngine.reconcile` inside the lock: the image phase runs
first, then the container phase. -/
def reconcilePassT (imgs conts : List (String × Bool)) : List RAction :=
  reconcileImagesT imgs ++ reconcileContainersT conts

theorem reconcileContainersT_takeWhile (conts : List (String × Bool)) :
    (reconcileContainersT conts).takeWhile isImgAction = [] := by
  cases conts with
  | nil => rfl
  | cons c rest => rfl

theorem reconcileContainersT_dropWhile (conts : List (String × Bool)) :
    (reconcileContainersT conts).dropWhile isImgAction = reconcileContainersT conts := by
  cases conts with
  | nil => rfl
  | cons c rest => rfl

theorem reconcilePassT_takeWhile (imgs conts : List (String × Bool)) :
    (reconcilePassT imgs conts).takeWhile isImgAction = reconcileImagesT imgs := by
  induction imgs with
  | nil => simpa [reconcilePassT, reconcileImagesT] using
      reconcileContainersT_takeWhile conts
  | cons i rest ih =>
      obtain ⟨n, fails⟩ := i
      simpa [reconcilePassT, reconcileImagesT, List.takeWhile_cons, isImgAction]
        using ih

theorem reconcilePassT_dropWhile (imgs conts : List (String × Bool)) :
    (reconcilePassT imgs conts).dropWhile isImgAction = reconcileContainersT conts := by
  induction imgs with
  | nil => simpa [reconcilePassT, reconcileImagesT] using
      reconcileContainersT_dropWhile conts
  | cons i rest ih =>
      obtain ⟨n, fails⟩ := i
      simpa [reconcilePassT, reconcileImagesT, List.dropWhile_cons, isImgAction]
        using ih

theorem reconcileImagesT_names (imgs : List (String × Bool)) :
    (reconcileImagesT imgs).map actionName = imgs.map Prod.fst := by
  induction imgs with
  | nil => rfl
  | cons i rest ih =>
      obtain ⟨n, fails⟩ := i
      simpa [reconcileImagesT, actionName] using ih

theorem reconcileContainersT_names (conts : List (String × Bool)) :
    (reconcileContainersT conts).map actionName = conts.map Prod.fst := by
  induction conts with
  | nil => rfl
  | cons c rest ih =>
      obtain ⟨n, fails⟩ := c
      simpa [reconcileContainersT, actionName] using ih

/-- Program counter of one reconcile invocation: not yet called, awaiting
the lock, running the pass (critical section), finished. -/
inductive TPc where
  | idle
  | waiting
  | crit
  | done
deriving DecidableEq, Repr

/-- Joint state of the reconciliation lock and two concurrent reconcile
invocations. -/
structure TState where
  lock : Bool
  pc1 : TPc
  pc2 : TPc
deriving DecidableEq, Repr

/-- Interleaved small-step semantics of two concurrent `reconcile()`
calls: `async with self._reconciliation_lock` acquires only when the lock
is free, the pass body runs inside, and leaving the block releases. -/
inductive TStep : TState → TState → Prop where
  | request1 (s : TState) : s.pc1 = .idle → TStep s { s with pc1 := .waiting }
  | request2 (s : TState) : s.pc2 = .idle → TStep s { s with pc2 := .waiting }
  | acquire1 (s : TState) : s.pc1 = .waiting → s.lock = false →
      TStep s { s with pc1 := .crit, lock := true }
  | acquire2 (s : TState) : s.pc2 = .waiting → s.lock = false →
      TStep s { s with pc2 := .crit, lock := true }
  | release1 (s : TState) : s.pc1 = .crit →
      TStep s { s with pc1 := .done, lock := false }
  | release2 (s : TState) : s.pc2 = .crit →
      TStep s { s with pc2 := .done, lock := false }

/-- Initial state: lock free, neither invocation begun. -/
def TInit : TState := ⟨false, .idle, .idle⟩

/-- States reachable from the initial state by interleaving the two
invocations. -/
def TReach (s : TState) : Prop := Relation.ReflTransGen TStep TInit s

/-- Lock invariant: a task in its critical section holds the lock, and the
two tasks are never in the critical section together. -/
def TInv (s : TState) : Prop :=
  (s.pc1 = .crit → s.lock = true) ∧ (s.pc2 = .crit → s.lock = true)
    ∧ ¬(s.pc1 = .crit ∧ s.pc2 = .crit)

theorem tinv_init : TInv TInit := by
  refine ⟨?_, ?_, ?_⟩ <;> intro h <;> simp [TInit] at h

theorem tinv_step {s t : TState} (st : TStep s t) (hs : TInv s) : TInv t := by
  obtain ⟨h1, h2, h12⟩ := hs
  cases st with
  | request1 hpc =>
      refine ⟨?_, ?_, ?_⟩ <;> simp_all
  | request2 hpc =>
      refine ⟨?_, ?_, ?_⟩ <;> simp_all
  | acquire1 hpc hl =>
      refine ⟨fun _ => rfl, ?_, ?_⟩ <;> simp_all
  | acquire2 hpc hl =>
      refine ⟨?_, fun _ => rfl, ?_⟩ <;> simp_all
  | release1 hpc =>
      refine ⟨?_, ?_, ?_⟩ <;> simp_all
  | release2 hpc =>
      refine ⟨?_, ?_, ?_⟩ <;> simp_all

theorem tinv_reach {s : TState} (h : TReach s) : TInv s := by
  induction h with
  | refl => exact tinv_init
  | tail _ st ih => exact tinv_step st ih

/-- C3: reconciliation is single-flight and ordered — in every state
reachable by interleaving two concurrent reconcile invocations, the two
passes are never in their provider-calling critical section at the same
time (the second acquirer waits for the release); and within every single
pass the trace is exactly the image attempts (in catalog order) followed
by the container attempts, with every declared resource attempted
regardless of which individual reconciles fail. -/
theorem reconcile_single_flight_and_ordering :
    (∀ s : TState, TReach s → ¬(s.pc1 = .crit ∧ s.pc2 = .crit))
    ∧ (∀ imgs conts : List (String × Bool),
        (reconcilePassT imgs conts).takeWhile isImgAction = reconcileImagesT imgs
        ∧ (reconcilePassT imgs conts).dropWhile isImgAction
            = reconcileContainersT conts)
    ∧ (∀ imgs conts : List (String × Bool),
        (reconcileImagesT imgs).map actionName = imgs.map Prod.fst
        ∧ (reconcileContainersT conts).map actionName = conts.map Prod.fst) := by
  refine ⟨fun s hs => (tinv_reach hs).2.2, fun imgs conts => ?_, fun imgs conts => ?_⟩
  · exact ⟨reconcilePassT_takeWhile imgs conts, reconcilePassT_dropWhile imgs conts⟩
  · exact ⟨reconcileImagesT_names imgs, reconcileContainersT_names conts⟩

/-- C3 witness: the mutual-exclusion component applied to the initial
state, and the ordering components applied to a concrete one-image,
one-container catalog in which the image reconcile fails. -/
theorem reconcile_single_flight_and_ordering_witness :
    ¬(TInit.pc1 = .crit ∧ TInit.pc2 = .crit)
    ∧ (reconcilePassT [("u-tar", true)] [("c1", false)]).takeWhile isImgAction
        = reconcileImagesT [("u-tar", true)]
    ∧ (reconcileImagesT [("u-tar", true)]).map actionName = ["u-tar"] :=
  ⟨reconcile_single_flight_and_ordering.1 TInit Relation.ReflTransGen.refl,
   (reconcile_single_flight_and_ordering.2.1 [("u-tar", true)] [("c1", false)]).1,
   (reconcile_single_flight_and_ordering.2.2 [("u-tar", true)] [("c1", false)]).1⟩

/-! ## Exec quoting (`ContainerProvider.execute`, shlex.join)

The shell-safe joiner is CPython shlex: an argument made only of safe
characters is left bare, the empty argument becomes a pair of single
quotes, and anything else is wrapped in single quotes with every embedded
single quote rewritten to the quote-doublequote-quote-doublequote-quote
sequence. To state that no argument escapes, a POSIX shell lexer over the
joiner output alphabet is defined (blanks split words, the seven operator
characters form operator tokens, single- and double-quoted spans are
literal); the roundtrip theorem says lexing the joined string yields the
original arguments as plain words — never an operator token. -/

/-- The single-quote character. -/
def squote : Char := Char.ofNat 39

/-- The double-quote character. -/
def dquote : Char := Char.ofNat 34

/-- The safe set of CPython shlex.quote: ASCII letters, digits, underscore
and the characters at-sign percent plus equals colon comma dot slash
hyphen. -/
def isSafeChar (c : Char) : Bool :=
  (65 ≤ c.toNat && c.toNat ≤ 90) || (97 ≤ c.toNat && c.toNat ≤ 122) ||
    (48 ≤ c.toNat && c.toNat ≤ 57) || c = '_' || c = '@' || c = '%' ||
    c = '+' || c = '=' || c = ':' || c = ',' || c = '.' || c = '/' || c = '-'

/-- Embedding of the replace step of shlex.quote: every embedded single
quote becomes the five-character close-quote, double-quoted quote,
reopen-quote sequence. -/
def escapeQuote : List Char → List Char
  | [] => []
  | c :: cs =>
      if c = squote then
        squote :: dquote :: squote :: dquote :: squote :: escapeQuote cs
      else c :: escapeQuote cs

/-- Embedding of shlex.quote on character lists. -/
def shlexQuoteL (s : List Char) : List Char :=
  if s = [] then [squote, squote]
  else if s.all isSafeChar then s
  else squote :: (escapeQuote s ++ [squote])

/-- Embedding of shlex.join on character lists: the quoted arguments
separated by single spaces. -/
def shlexJoinL : List (List Char) → List Char
  | [] => []
  | [a] => shlexQuoteL a
  | a :: rest => shlexQuoteL a ++ ' ' :: shlexJoinL rest

/-- shlex.join over strings, as `ContainerProvider.execute` calls it. -/
def shlexJoin (argv : List String) : String :=
  String.mk (shlexJoinL (argv.map String.data))

/-- The argument vector `ContainerProvider.execute` hands to the host:
the shell-into-container tool, the machine name, and a bash invocation of
the joined command string (`src/chimera/providers/container.py` line
246). -/
def execCmd (name : String) (argv : List String) : List String :=
  ["machinectl", "shell", name, "/bin/bash", "-c", shlexJoin argv]

/-- Embedding of the result handling in `ContainerProvider.execute`: a
zero exit returns the captured output, a non-zero exit is caught from the
checked runner and returned as the same record — in both cases a plain
value, never an exception. -/
def executeResult (rc : Nat) (out err : String) : Nat × String × String :=
  if rc = 0 then (0, out, err) else (rc, out, err)

/-- A shell lexical token: a word, or an unquoted operator character. -/
inductive ShTok where
  | word : List Char → ShTok
  | op : Char → ShTok
deriving DecidableEq, Repr

/-- Blanks that separate shell words. -/
def isBlank (c : Char) : Bool := c = ' ' || c = '\t' || c = '\n'

/-- The shell operator characters: an unquoted one of these starts a new
command or redirection, which is exactly what quoting must prevent. -/
def isShellOp (c : Char) : Bool :=
  c = ';' || c = '&' || c = '|' || c = '<' || c = '>' || c = '(' || c = ')'

/-- Lexer modes: outside quotes, inside single quotes, inside double
quotes. -/
inductive ShMode where
  | norm
  | insq
  | indq

/-- Flush the in-progress word (kept reversed) onto the token stack. -/
def flushW : Option (List Char) → List ShTok → List ShTok
  | none, acc => acc
  | some w, acc => ShTok.word w.reverse :: acc

/-- The POSIX-style lexer: words split at blanks, operator characters
form their own tokens, single-quoted spans are literal until the closing
quote, double-quoted spans are literal until the closing double quote;
an unterminated quote is a lexical error (none). -/
def shTokGo : List Char → ShMode → Option (List Char) → List ShTok → Option (List ShTok)
  | [], .norm, cur, acc => some (flushW cur acc).reverse
  | [], .insq, _, _ => none
  | [], .indq, _, _ => none
  | c :: cs, .norm, cur, acc =>
      if isBlank c then shTokGo cs .norm none (flushW cur acc)
      else if c = squote then shTokGo cs .insq (some (cur.getD [])) acc
      else if c = dquote then shTokGo cs .indq (some (cur.getD [])) acc
      else if isShellOp c then shTokGo cs .norm none (ShTok.op c :: flushW cur acc)
      else shTokGo cs .norm (some (c :: cur.getD [])) acc
  | c :: cs, .insq, cur, acc =>
      if c = squote then shTokGo cs .norm cur acc
      else shTokGo cs .insq (some (c :: cur.getD [])) acc
  | c :: cs, .indq, cur, acc =>
      if c = dquote then shTokGo cs .norm cur acc
      else shTokGo cs .indq (some (c :: cur.getD [])) acc

/-- Lex a whole string. -/
def shellTokens (s : List Char) : Option (List ShTok) := shTokGo s .norm none []

theorem safe_char_not_special {c : Char} (h : isSafeChar c = true) :
    isBlank c = false ∧ c ≠ squote ∧ c ≠ dquote ∧ isShellOp c = false := by
  by_cases h1 : c = ' '
  · subst h1; exact absurd h (by decide)
  by_cases h2 : c = '\t'
  · subst h2; exact absurd h (by decide)
  by_cases h3 : c = '\n'
  · subst h3; exact absurd h (by decide)
  by_cases h4 : c = squote
  · subst h4; exact absurd h (by decide)
  by_cases h5 : c = dquote
  · subst h5; exact absurd h (by decide)
  by_cases h6 : c = ';'
  · subst h6; exact absurd h (by decide)
  by_cases h7 : c = '&'
  · subst h7; exact absurd h (by decide)
  by_cases h8 : c = '|'
  · subst h8; exact absurd h (by decide)
  by_cases h9 : c = '<'
  · subst h9; exact absurd h (by decide)
  by_cases h10 : c = '>'
  · subst h10; exact absurd h (by decide)
  by_cases h11 : c = '('
  · subst h11; exact absurd h (by decide)
  by_cases h12 : c = ')'
  · subst h12; exact absurd h (by decide)
  exact ⟨by simp [isBlank, h1, h2, h3], h4, h5,
    by simp [isShellOp, h6, h7, h8, h9, h10, h11, h12]⟩

theorem tok_norm_blank {c : Char} (h : isBlank c = true) (cs : List Char)
    (cur : Option (List Char)) (acc : List ShTok) :
    shTokGo (c :: cs) .norm cur acc = shTokGo cs .norm none (flushW cur acc) := by
  simp [shTokGo, h]

theorem tok_norm_sq (cs : List Char) (cur : Option (List Char))
    (acc : List ShTok) :
    shTokGo (squote :: cs) .norm cur acc
      = shTokGo cs .insq (some (cur.getD [])) acc := by
  have hb : isBlank squote = false := by decide
  simp [shTokGo, hb]

theorem tok_norm_lit {c : Char} (hb : isBlank c = false) (hsq : c ≠ squote)
    (hdq : c ≠ dquote) (hop : isShellOp c = false) (cs : List Char)
    (cur : Option (List Char)) (acc : List ShTok) :
    shTokGo (c :: cs) .norm cur acc
      = shTokGo cs .norm (some (c :: cur.getD [])) acc := by
  simp [shTokGo, hb, hsq, hdq, hop]

theorem tok_norm_dq (cs : List Char) (cur : Option (List Char))
    (acc : List ShTok) :
    shTokGo (dquote :: cs) .norm cur acc
      = shTokGo cs .indq (some (cur.getD [])) acc := by
  have hb : isBlank dquote = false := by decide
  have hne : dquote ≠ squote := by decide
  simp [shTokGo, hb, hne]

theorem tok_insq_close (cs : List Char) (cur : Option (List Char))
    (acc : List ShTok) :
    shTokGo (squote :: cs) .insq cur acc = shTokGo cs .norm cur acc := by
  simp [shTokGo]

theorem tok_insq_lit {c : Char} (h : c ≠ squote) (cs : List Char)
    (cur : Option (List Char)) (acc : List ShTok) :
    shTokGo (c :: cs) .insq cur acc
      = shTokGo cs .insq (some (c :: cur.getD [])) acc := by
  simp [shTokGo, h]

theorem tok_indq_close (cs : List Char) (cur : Option (List Char))
    (acc : List ShTok) :
    shTokGo (dquote :: cs) .indq cur acc = shTokGo cs .norm cur acc := by
  simp [shTokGo]

theorem tok_indq_lit {c : Char} (h : c ≠ dquote) (cs : List Char)
    (cur : Option (List Char)) (acc : List ShTok) :
    shTokGo (c :: cs) .indq cur acc
      = shTokGo cs .indq (some (c :: cur.getD [])) acc := by
  simp [shTokGo, h]

theorem shTokGo_safe_run {a : List Char} (ha : a.all isSafeChar = true) :
    ∀ (cur rest : List Char) (acc : List ShTok),
      shTokGo (a ++ rest) .norm (some cur) acc
        = shTokGo rest .norm (some (a.reverse ++ cur)) acc := by
  induction a with
  | nil => intro cur rest acc; simp
  | cons c cs ih =>
      intro cur rest acc
      simp only [List.all_cons, Bool.and_eq_true] at ha
      obtain ⟨hc, hcs⟩ := ha
      obtain ⟨hb, hsq, hdq, hop⟩ := safe_char_not_special hc
      rw [List.cons_append, tok_norm_lit hb hsq hdq hop]
      rw [Option.getD_some, ih hcs (c :: cur) rest acc]
      simp

theorem shTokGo_escaped_run (a : List Char) :
    ∀ (cur rest : List Char) (acc : List ShTok),
      shTokGo (escapeQuote a ++ squote :: rest) .insq (some cur) acc
        = shTokGo rest .norm (some (a.reverse ++ cur)) acc := by
  induction a with
  | nil =>
      intro cur rest acc
      rw [show escapeQuote [] = [] from rfl, List.nil_append, tok_insq_close]
      simp
  | cons c cs ih =>
      intro cur rest acc
      by_cases hc : c = squote
      · subst hc
        rw [show escapeQuote (squote :: cs)
            = squote :: dquote :: squote :: dquote :: squote :: escapeQuote cs
            from by simp [escapeQuote]]
        rw [List.cons_append, tok_insq_close]
        rw [List.cons_append, tok_norm_dq, Option.getD_some]
        rw [List.cons_append, tok_indq_lit (by decide), Option.getD_some]
        rw [List.cons_append, tok_indq_close]
        rw [List.cons_append, tok_norm_sq, Option.getD_some]
        rw [ih (squote :: cur) rest acc]
        simp
      · rw [show escapeQuote (c :: cs) = c :: escapeQuote cs
            from by simp [escapeQuote, hc]]
        rw [List.cons_append, tok_insq_lit hc, Option.getD_some]
        rw [ih (c :: cur) rest acc]
        simp

theorem shTokGo_quote_run (a : List Char) :
    ∀ (cur : Option (List Char)) (rest : List Char) (acc : List ShTok),
      shTokGo (shlexQuoteL a ++ rest) .norm cur acc
        = shTokGo rest .norm (some (a.reverse ++ cur.getD [])) acc := by
  intro cur rest acc
  by_cases hnil : a = []
  · subst hnil
    rw [show shlexQuoteL [] = [squote, squote] from rfl]
    rw [show ([squote, squote] : List Char) ++ rest = squote :: squote :: rest
      from rfl]
    rw [tok_norm_sq, tok_insq_close]
    simp
  · by_cases hsafe : a.all isSafeChar = true
    · rw [shlexQuoteL, if_neg hnil, if_pos hsafe]
      obtain ⟨c, cs, rfl⟩ : ∃ c cs, a = c :: cs := by
        cases a with
        | nil => exact absurd rfl hnil
        | cons c cs => exact ⟨c, cs, rfl⟩
      have ha := hsafe
      simp only [List.all_cons, Bool.and_eq_true] at ha
      obtain ⟨hc, hcs⟩ := ha
      obtain ⟨hb, hsq, hdq, hop⟩ := safe_char_not_special hc
      rw [List.cons_append, tok_norm_lit hb hsq hdq hop]
      rw [shTokGo_safe_run hcs (c :: cur.getD []) rest acc]
      simp
    · rw [shlexQuoteL, if_neg hnil, if_neg hsafe]
      rw [List.cons_append, List.append_assoc]
      rw [show ([squote] : List Char) ++ rest = squote :: rest from rfl]
      rw [tok_norm_sq, shTokGo_escaped_run a (cur.getD []) rest acc]

theorem shTokGo_join_run (args : List (List Char)) (hne : args ≠ []) :
    ∀ acc : List ShTok,
      shTokGo (shlexJoinL args) .norm none acc
        = some (acc.reverse ++ args.map ShTok.word) := by
  induction args with
  | nil => exact absurd rfl hne
  | cons a rest ih =>
      intro acc
      cases rest with
      | nil =>
          rw [show shlexJoinL [a] = shlexQuoteL a from rfl,
            show shlexQuoteL a = shlexQuoteL a ++ [] by simp,
            shTokGo_quote_run a none [] acc]
          simp [shTokGo, flushW]
      | cons b rest2 =>
          rw [show shlexJoinL (a :: b :: rest2)
              = shlexQuoteL a ++ ' ' :: shlexJoinL (b :: rest2) from rfl,
            shTokGo_quote_run a none (' ' :: shlexJoinL (b :: rest2)) acc,
            tok_norm_blank (by decide)]
          rw [show flushW (some (a.reverse ++ (none : Option (List Char)).getD []))
              acc = ShTok.word a :: acc from by simp [flushW]]
          rw [ih (by simp) (ShTok.word a :: acc)]
          simp

/-- The claim's example argument vector, as character lists. -/
def exArgv : List (List Char) :=
  [String.data "echo", String.data "hello world", String.data ";",
   String.data "rm", String.data "-rf", String.data "/"]

/-- C9: execute invokes the host shell-into-container tool as machinectl
shell name /bin/bash -c joined, where joined is the shlex join of the
argument vector; lexing the joined string with a POSIX shell lexer
returns exactly the original arguments as single words — an argument
containing spaces or metacharacters stays one token and no operator
token ever appears, so nothing escapes into a separate command — and a
non-zero exit code is reported in the returned record rather than
raised. -/
theorem execute_shell_quoting_roundtrip :
    (∀ args : List (List Char),
      shellTokens (shlexJoinL args) = some (args.map ShTok.word))
    ∧ (∀ name argv, execCmd name argv
        = ["machinectl", "shell", name, "/bin/bash", "-c", shlexJoin argv])
    ∧ shellTokens (shlexJoinL exArgv) = some (exArgv.map ShTok.word)
    ∧ shlexJoinL exArgv
        = String.data "echo " ++ [squote] ++ String.data "hello world"
          ++ [squote, ' ', squote, ';', squote]
          ++ String.data " rm -rf /"
    ∧ (∀ rc out err, executeResult rc out err = (rc, out, err)) := by
  have hall : ∀ args : List (List Char),
      shellTokens (shlexJoinL args) = some (args.map ShTok.word) := by
    intro args
    cases args with
    | nil => rfl
    | cons a rest =>
        have := shTokGo_join_run (a :: rest) (by simp) []
        simpa [shellTokens] using this
  refine ⟨hall, fun name argv => rfl, hall exArgv, by decide, ?_⟩
  intro rc out err
  by_cases h : rc = 0
  · subst h; rfl
  · simp [executeResult, h]

end Chimera
